import Mathlib

/-!
Shallow embedding of the OAuth2 authorization-code flow of `ticktui`
(`src/ticktui/oauth.py` and the auth part of `src/ticktui/api.py`).

Strings are modelled as `List Char`; the fragments of `urllib.parse`
(`parse_qs`, `quote_plus`/`urlencode`) that the code relies on are embedded
for the ASCII inputs the flow manipulates.  External effects (socket binds,
the browser, the token endpoint, the incoming callback requests) are supplied
by an explicit environment, and Python exceptions are an explicit error type.
-/

set_option autoImplicit false
set_option linter.unusedVariables false

namespace Ticktui

/-- Decidable equality on `Except`, used to evaluate flow outcomes. -/
instance {ε α : Type} [DecidableEq ε] [DecidableEq α] : DecidableEq (Except ε α) := fun x y =>
  match x, y with
  | Except.ok a, Except.ok b =>
    if h : a = b then Decidable.isTrue (h ▸ rfl)
    else Decidable.isFalse (fun hh => h (Except.ok.inj hh))
  | Except.error e, Except.error f =>
    if h : e = f then Decidable.isTrue (h ▸ rfl)
    else Decidable.isFalse (fun hh => h (Except.error.inj hh))
  | Except.ok _, Except.error _ => Decidable.isFalse (fun hh => Except.noConfusion hh)
  | Except.error _, Except.ok _ => Decidable.isFalse (fun hh => Except.noConfusion hh)

/-- Python strings, modelled as lists of characters. -/
abbrev Chars := List Char

/-- Python exceptions that can cross the subsystem's boundaries. -/
inductive PyExn where
  /-- `RuntimeError(msg)` (raised by `_find_available_port`). -/
  | runtimeError (msg : Chars)
  /-- `ValueError(msg)` (raised by `refresh_access_token`). -/
  | valueError (msg : Chars)
  /-- `httpx.HTTPStatusError` from `Response.raise_for_status()` on a
  non-2xx response, carrying the status code. -/
  | httpStatusError (status : Nat)
  /-- Any other exception (e.g. one raised by `webbrowser.open`). -/
  | other (msg : Chars)
deriving Repr, DecidableEq

/-- Python truthiness of an `Optional[str]`: `None` and `""` are falsy. -/
def truthy : Option Chars → Bool
  | none => false
  | some s => s ≠ []

/-- `httpx.Response.raise_for_status` succeeds exactly on 2xx statuses. -/
def is2xx (status : Nat) : Bool := 200 ≤ status && status < 300

/-! ## `urllib.parse` fragment -/

/-- The characters `urllib.parse.quote` never escapes
(`_ALWAYS_SAFE`: ASCII letters, digits, and `_.-~`). -/
def alwaysSafeChars : Chars :=
  "ABCDEFGHIJKLMNOPQRSTUVWXYZabcdefghijklmnopqrstuvwxyz0123456789_.-~".data

/-- The alphabet of `secrets.token_urlsafe` (base64url). -/
def urlsafeChars : Chars :=
  "ABCDEFGHIJKLMNOPQRSTUVWXYZabcdefghijklmnopqrstuvwxyz0123456789-_".data

/-- Uppercase hexadecimal digits, as used by `quote`'s `%XX` escapes. -/
def hexDigit (n : Nat) : Char := "0123456789ABCDEF".data.getD n '0'

/-- Value of a hexadecimal digit, as accepted by `urllib.parse.unquote`. -/
def hexVal (c : Char) : Option Nat :=
  if c = '0' then some 0 else if c = '1' then some 1
  else if c = '2' then some 2 else if c = '3' then some 3
  else if c = '4' then some 4 else if c = '5' then some 5
  else if c = '6' then some 6 else if c = '7' then some 7
  else if c = '8' then some 8 else if c = '9' then some 9
  else if c = 'A' then some 10 else if c = 'B' then some 11
  else if c = 'C' then some 12 else if c = 'D' then some 13
  else if c = 'E' then some 14 else if c = 'F' then some 15
  else if c = 'a' then some 10 else if c = 'b' then some 11
  else if c = 'c' then some 12 else if c = 'd' then some 13
  else if c = 'e' then some 14 else if c = 'f' then some 15
  else none

/-- `urllib.parse.quote_plus` on one character (ASCII fragment): space
becomes `+`, safe characters pass through, the rest become `%XX`. -/
def quoteChar (c : Char) : Chars :=
  if c = ' ' then ['+']
  else if c ∈ alwaysSafeChars then [c]
  else ['%', hexDigit (c.toNat / 16), hexDigit (c.toNat % 16)]

/-- `urllib.parse.quote_plus` on a string (ASCII fragment). -/
def quotePlus (s : Chars) : Chars := (s.map quoteChar).flatten

/-- `urllib.parse.urlencode`: `&`-joined `key=quote_plus(value)` fields. -/
def urlencode : List (Chars × Chars) → Chars
  | [] => []
  | [(k, v)] => quotePlus k ++ '=' :: quotePlus v
  | (k, v) :: rest => quotePlus k ++ '=' :: quotePlus v ++ '&' :: urlencode rest

/-- Percent-decoding as in `urllib.parse.unquote`: well-formed `%XX`
escapes are decoded, malformed ones are left in place. -/
def percentDecode : Chars → Chars
  | [] => []
  | c :: rest =>
    if c = '%' then
      match rest with
      | a :: b :: rest' =>
        match hexVal a, hexVal b with
        | some ha, some hb => Char.ofNat (16 * ha + hb) :: percentDecode rest'
        | _, _ => c :: percentDecode (a :: b :: rest')
      | [a] => c :: percentDecode [a]
      | [] => [c]
    else c :: percentDecode rest

/-- The `unquote(nv.replace('+', ' '))` step of `parse_qsl`. -/
def unquotePlus (s : Chars) : Chars :=
  percentDecode (s.map fun c => if c = '+' then ' ' else c)

/-- Split a string on every occurrence of `sep` (as `str.split(sep)`). -/
def splitOnChar (sep : Char) : Chars → List Chars
  | [] => [[]]
  | c :: rest =>
    match splitOnChar sep rest with
    | [] => if c = sep then [[], []] else [[c]]
    | f :: fs => if c = sep then [] :: f :: fs else (c :: f) :: fs

/-- Split a field at its first `=` (as `name_value.split('=', 1)`). -/
def splitFirstEq : Chars → Option (Chars × Chars)
  | [] => none
  | c :: rest =>
    if c = '=' then some ([], rest)
    else
      match splitFirstEq rest with
      | some (k, v) => some (c :: k, v)
      | none => none

/-- One field of `parse_qsl` with default options: empty fields, fields
without `=`, and fields with an empty value are dropped; name and value
are plus-decoded and percent-decoded. -/
def parseField (f : Chars) : Option (Chars × Chars) :=
  if f = [] then none
  else
    match splitFirstEq f with
    | none => none
    | some (k, v) => if v = [] then none else some (unquotePlus k, unquotePlus v)

/-- `urllib.parse.parse_qsl` with default options. -/
def parse_qsl (query : Chars) : List (Chars × Chars) :=
  (splitOnChar '&' query).filterMap parseField

/-- All values of `key` in a parsed query, in order: `parse_qs(query)[key]`.
The key is in the `parse_qs` dictionary iff this list is nonempty. -/
def getAll (pairs : List (Chars × Chars)) (key : Chars) : List Chars :=
  pairs.filterMap fun p => if p.1 = key then some p.2 else none

/-- Split a request target at its first `?` into path and query
(the part of `urlparse` that `OAuthCallbackHandler.do_GET` uses). -/
def splitTarget : Chars → Chars × Chars
  | [] => ([], [])
  | c :: rest =>
    if c = '?' then ([], rest)
    else
      let (p, q) := splitTarget rest
      (c :: p, q)

/-! ## Callback handler (`OAuthCallbackHandler`) -/

/-- The class-level shared state of `OAuthCallbackHandler`
(`auth_code`, `auth_state`, `error`). -/
structure CallbackState where
  auth_code : Option Chars
  auth_state : Option Chars
  error : Option Chars
deriving Repr, DecidableEq

/-- The state after `OAuthRedirectServer.start` resets the handler fields. -/
def resetState : CallbackState := ⟨none, none, none⟩

/-- `OAuthCallbackHandler.do_GET`: given the shared state and the raw
request target, produce the updated shared state and the HTTP status of
the response. -/
def do_GET (st : CallbackState) (target : Chars) : CallbackState × Nat :=
  let (path, query) := splitTarget target
  if path = "/callback".data then
    let params := parse_qsl query
    match getAll params "code".data with
    | c :: _ =>
      ({ st with auth_code := some c,
                 auth_state := (getAll params "state".data).head? }, 200)
    | [] =>
      match getAll params "error".data with
      | e :: _ =>
        let msg := ((getAll params "error_description".data).head?).getD e
        ({ st with error := some msg }, 400)
      | [] =>
        ({ st with error := some "No authorization code received".data }, 400)
  else
    (st, 404)

/-- The shared state after the handler has served a sequence of requests,
starting from the post-`start` reset state. -/
def serveAll (requests : List Chars) : CallbackState :=
  requests.foldl (fun st req => (do_GET st req).1) resetState

/-! ## Port allocator (`OAuthRedirectServer._find_available_port`) -/

/-- The loop of `_find_available_port`: try `count` consecutive ports
starting at `p`, returning the first that binds. -/
def findPortLoop (canBind : Nat → Bool) : Nat → Nat → Option Nat
  | _, 0 => none
  | p, count + 1 => if canBind p then some p else findPortLoop canBind (p + 1) count

/-- The message of the `RuntimeError` raised when no port binds
(the f-string interpolates the starting port). -/
def noAvailablePortMsg (start : Nat) : Chars :=
  "No available ports found starting from ".data ++ (Nat.repr start).data

/-- `OAuthRedirectServer._find_available_port`: scan `[start, start+100)`
for the first bindable port; raise `RuntimeError` if none binds. -/
def find_available_port (canBind : Nat → Bool) (start : Nat) : Except PyExn Nat :=
  match findPortLoop canBind start 100 with
  | some p => Except.ok p
  | none => Except.error (.runtimeError (noAvailablePortMsg start))

/-- `OAuthRedirectServer.redirect_uri` with the default host `localhost`. -/
def redirect_uri (port : Nat) : Chars :=
  "http://localhost:".data ++ (Nat.repr port).data ++ "/callback".data

/-! ## Auth client (`TickTickAuth` in `api.py`) -/

/-- `TickTickAuth.AUTHORIZE_URL`. -/
def AUTHORIZE_URL : Chars := "https://ticktick.com/oauth/authorize".data

/-- A JSON object with string values, as returned by the token endpoint. -/
abbrev JsonDict := List (Chars × Chars)

/-- `d.get(k)` on a Python dict (first matching key). -/
def dictGet (d : JsonDict) (k : Chars) : Option Chars :=
  (d.filterMap fun p => if p.1 = k then some p.2 else none).head?

/-- `k in d` on a Python dict. -/
def dictContains (d : JsonDict) (k : Chars) : Bool := d.any (fun p => p.1 = k)

/-- `TickTickAuth.get_authorization_url` with an explicitly supplied `state`
(the `state=None` call in the flow draws it from `secrets.token_urlsafe(32)`,
modelled here as an input).  Returns `(authorization_url, state)`. -/
def get_authorization_url (client_id redirect state : Chars) : Chars × Chars :=
  let params := [("client_id".data, client_id),
                 ("redirect_uri".data, redirect),
                 ("response_type".data, "code".data),
                 ("scope".data, "tasks:read tasks:write".data),
                 ("state".data, state)]
  (AUTHORIZE_URL ++ '?' :: urlencode params, state)

/-- A token-endpoint HTTP response: status code and decoded JSON body. -/
structure TokenEndpoint where
  status : Nat
  body : JsonDict
deriving Repr, DecidableEq

/-- `TickTickAuth.exchange_code`: `raise_for_status()` on the response of the
POST to the token endpoint, then return the decoded `token_data`. -/
def exchange_code (resp : TokenEndpoint) : Except PyExn JsonDict :=
  if is2xx resp.status then Except.ok resp.body
  else Except.error (.httpStatusError resp.status)

/-- The token fields of a `TickTickAuth` instance
(`_access_token`, `_refresh_token`). -/
structure AuthState where
  access_token : Option Chars
  refresh_token : Option Chars
deriving Repr, DecidableEq

/-- `TickTickAuth.refresh_access_token`, with the token endpoint's answer to
the refresh POST supplied as `resp`: raise `ValueError` when no refresh token
is held (Python truthiness), `raise_for_status()` on the response, then store
the new `access_token` and — only when the key is present — the new
`refresh_token`.  Returns the updated fields and the `token_data`. -/
def refresh_access_token (st : AuthState) (resp : TokenEndpoint) :
    Except PyExn (AuthState × JsonDict) :=
  if ¬ truthy st.refresh_token then
    Except.error (.valueError "No refresh token available".data)
  else if ¬ is2xx resp.status then
    Except.error (.httpStatusError resp.status)
  else
    let st1 := { st with access_token := dictGet resp.body "access_token".data }
    let st2 :=
      if dictContains resp.body "refresh_token".data then
        { st1 with refresh_token := dictGet resp.body "refresh_token".data }
      else st1
    Except.ok (st2, resp.body)

/-! ## Flow coordinator (`perform_oauth_flow`) -/

/-- The external world one flow run interacts with: which ports bind, whether
`webbrowser.open` raises, the callback requests the listener has served when
`wait_for_callback` returns, and the token endpoint's response. -/
structure FlowEnv where
  canBind : Nat → Bool
  browserExn : Option PyExn
  requests : List Chars
  token : TokenEndpoint

/-- What a run of `perform_oauth_flow` produced: the returned triple or the
escaped exception, plus whether the listener was started, whether
`OAuthRedirectServer.stop` ran, and whether the token exchange was invoked. -/
structure FlowOutcome where
  result : Except PyExn (Option Chars × Option Chars × Option Chars)
  serverStarted : Bool
  serverStopped : Bool
  exchangeAttempted : Bool
deriving Repr, DecidableEq

/-- The exact message of the CSRF branch in `perform_oauth_flow`. -/
def stateMismatchMsg : Chars := "State mismatch - possible CSRF attack".data

/-- The exact message of the timeout branch in `perform_oauth_flow`. -/
def timeoutMsg : Chars := "Authorization timed out".data

/-- `perform_oauth_flow(client_id, client_secret)`: start the redirect server
(port search, handler-state reset), build the authorization URL, open the
browser, wait for the callback, check `error`, `code` and `state`, exchange
the code, and in all cases after a successful start run `server.stop()` via
the `finally` block — also when an exception propagates. -/
def perform_oauth_flow (client_id client_secret genState : Chars) (env : FlowEnv) :
    FlowOutcome :=
  match find_available_port env.canBind 8080 with
  | Except.error e =>
    -- `server.start()` raised before the `try` block: no listener, no `stop`.
    { result := Except.error e, serverStarted := false, serverStopped := false,
      exchangeAttempted := false }
  | Except.ok port =>
    let auth_url_state := get_authorization_url client_id (redirect_uri port) genState
    let state := auth_url_state.2
    match env.browserExn with
    | some e =>
      { result := Except.error e, serverStarted := true, serverStopped := true,
        exchangeAttempted := false }
    | none =>
      let cb := serveAll env.requests
      if truthy cb.error then
        { result := Except.ok (none, none, cb.error), serverStarted := true,
          serverStopped := true, exchangeAttempted := false }
      else if ¬ truthy cb.auth_code then
        { result := Except.ok (none, none, some timeoutMsg), serverStarted := true,
          serverStopped := true, exchangeAttempted := false }
      else if cb.auth_state ≠ some state then
        { result := Except.ok (none, none, some stateMismatchMsg), serverStarted := true,
          serverStopped := true, exchangeAttempted := false }
      else
        match exchange_code env.token with
        | Except.error e =>
          { result := Except.error e, serverStarted := true, serverStopped := true,
            exchangeAttempted := true }
        | Except.ok token_data =>
          { result := Except.ok (dictGet token_data "access_token".data,
                                 dictGet token_data "refresh_token".data, none),
            serverStarted := true, serverStopped := true, exchangeAttempted := true }

/-! ## Concrete inputs used by witnesses and counterexamples -/

/-- Bind pattern for the C5 witness: only port 8082 binds. -/
def c5Bind : Nat → Bool := fun p => p == 8082

/-- A callback request carrying a code and the matching state `S`. -/
def reqCode : Chars := "/callback?code=abc123&state=S".data

/-- A callback request carrying a code and a wrong state. -/
def reqCodeWrong : Chars := "/callback?code=abc123&state=WRONG".data

/-- A callback request carrying a bare provider error. -/
def reqErr : Chars := "/callback?error=access_denied".data

/-- A callback request carrying an error with a percent-encoded description. -/
def reqErrDesc : Chars := "/callback?error=access_denied&error_description=User%20declined".data

/-- A token-endpoint response granting both tokens. -/
def tokenOk : TokenEndpoint :=
  ⟨200, [("access_token".data, "AT1".data), ("refresh_token".data, "RT1".data)]⟩

/-- Environment of the happy path: every port binds, the browser opens, one
callback with code and matching state, token endpoint grants both tokens. -/
def envSuccess : FlowEnv := ⟨fun _ => true, none, [reqCode], tokenOk⟩

/-- Environment for C1: valid callback, but the 2xx token response carries no
`access_token` (empty JSON object). -/
def envC1 : FlowEnv := ⟨fun _ => true, none, [reqCode], ⟨200, []⟩⟩

/-- Environment for C2: callback delivers a code with a wrong state. -/
def envC2 : FlowEnv := ⟨fun _ => true, none, [reqCodeWrong], tokenOk⟩

/-- Environment for C3: valid callback, token endpoint answers 500. -/
def envC3 : FlowEnv := ⟨fun _ => true, none, [reqCode], ⟨500, []⟩⟩

/-- Environment for C6/C10: a code callback followed by an error callback. -/
def envC6 : FlowEnv := ⟨fun _ => true, none, [reqCode, reqErr], tokenOk⟩

/-- Environment for C7: the provider redirects with an error description. -/
def envC7 : FlowEnv := ⟨fun _ => true, none, [reqErrDesc], tokenOk⟩

/-! ## Lemmas: the port-search loop -/

theorem findPortLoop_some (canBind : Nat → Bool) :
    ∀ (count p q : Nat), findPortLoop canBind p count = some q ↔
      (p ≤ q ∧ q < p + count ∧ canBind q = true ∧
        ∀ r, p ≤ r → r < q → canBind r = false) := by
  intro count
  induction count with
  | zero =>
    intro p q
    simp only [findPortLoop]
    constructor
    · intro h; exact absurd h (by simp)
    · intro ⟨h1, h2, _, _⟩; omega
  | succ n ih =>
    intro p q
    simp only [findPortLoop]
    by_cases h : canBind p = true
    · rw [if_pos h]
      constructor
      · intro hq
        have hpq : p = q := by simpa using hq
        subst hpq
        exact ⟨le_refl p, by omega, h, fun r h1 h2 => absurd (lt_of_le_of_lt h1 h2) (lt_irrefl p)⟩
      · intro ⟨h1, h2, h3, h4⟩
        have hpq : p = q := by
          by_contra hne
          have hlt : p < q := lt_of_le_of_ne h1 hne
          have := h4 p (le_refl p) hlt
          rw [h] at this
          exact absurd this (by simp)
        simp [hpq]
    · rw [if_neg h]
      rw [ih (p + 1) q]
      have hfalse : canBind p = false := by
        cases hcb : canBind p with
        | true => exact absurd hcb h
        | false => rfl
      constructor
      · intro ⟨h1, h2, h3, h4⟩
        refine ⟨by omega, by omega, h3, fun r hr1 hr2 => ?_⟩
        by_cases hrp : r = p
        · rw [hrp]; exact hfalse
        · exact h4 r (by omega) hr2
      · intro ⟨h1, h2, h3, h4⟩
        have hpq : p ≠ q := by
          intro he
          rw [he] at hfalse
          rw [h3] at hfalse
          exact absurd hfalse (by simp)
        refine ⟨by omega, by omega, h3, fun r hr1 hr2 => h4 r (by omega) hr2⟩

theorem findPortLoop_none (canBind : Nat → Bool) :
    ∀ (count p : Nat), findPortLoop canBind p count = none ↔
      ∀ r, p ≤ r → r < p + count → canBind r = false := by
  intro count
  induction count with
  | zero =>
    intro p
    simp only [findPortLoop]
    constructor
    · intro _ r h1 h2; omega
    · intro _; trivial
  | succ n ih =>
    intro p
    simp only [findPortLoop]
    by_cases h : canBind p = true
    · rw [if_pos h]
      constructor
      · intro hq; exact absurd hq (by simp)
      · intro hall
        have := hall p (le_refl p) (by omega)
        rw [h] at this
        exact absurd this (by simp)
    · rw [if_neg h]
      rw [ih (p + 1)]
      have hfalse : canBind p = false := by
        cases hcb : canBind p with
        | true => exact absurd hcb h
        | false => rfl
      constructor
      · intro hall r hr1 hr2
        by_cases hrp : r = p
        · rw [hrp]; exact hfalse
        · exact hall r (by omega) (by omega)
      · intro hall r hr1 hr2
        exact hall r (by omega) (by omega)

/-! ## Lemmas: quoting and query parsing -/

theorem hexDigit_mem (n : Nat) : hexDigit n ∈ "0123456789ABCDEF".data := by
  unfold hexDigit
  rcases Nat.lt_or_ge n 16 with h | h
  · interval_cases n <;> decide
  · rw [List.getD_eq_default]
    · decide
    · simpa using h

theorem quoteChar_cases (c d : Char) (h : d ∈ quoteChar c) :
    d = '+' ∨ d = '%' ∨ d ∈ alwaysSafeChars ∨ d ∈ "0123456789ABCDEF".data := by
  unfold quoteChar at h
  by_cases hsp : c = ' '
  · rw [if_pos hsp] at h
    left; simpa using h
  · rw [if_neg hsp] at h
    by_cases hsafe : c ∈ alwaysSafeChars
    · rw [if_pos hsafe] at h
      have hd : d = c := by simpa using h
      right; right; left; rw [hd]; exact hsafe
    · rw [if_neg hsafe] at h
      rcases List.mem_cons.mp h with h | h
      · right; left; exact h
      rcases List.mem_cons.mp h with h | h
      · right; right; right; rw [h]; exact hexDigit_mem _
      rcases List.mem_cons.mp h with h | h
      · right; right; right; rw [h]; exact hexDigit_mem _
      · exact absurd h (by simp)

theorem notMem_quotePlus (s : Chars) (d : Char) (h1 : d ≠ '+') (h2 : d ≠ '%')
    (h3 : d ∉ alwaysSafeChars) (h4 : d ∉ "0123456789ABCDEF".data) : d ∉ quotePlus s := by
  intro hmem
  unfold quotePlus at hmem
  rcases List.mem_flatten.mp hmem with ⟨t, ht, hd⟩
  rcases List.mem_map.mp ht with ⟨c, hc, rfl⟩
  rcases quoteChar_cases c d hd with h | h | h | h
  · exact h1 h
  · exact h2 h
  · exact h3 h
  · exact h4 h

theorem amp_notMem_quotePlus (s : Chars) : '&' ∉ quotePlus s :=
  notMem_quotePlus s '&' (by decide) (by decide) (by decide) (by decide)

theorem eqsign_notMem_quotePlus (s : Chars) : '=' ∉ quotePlus s :=
  notMem_quotePlus s '=' (by decide) (by decide) (by decide) (by decide)

theorem amp_notMem_field (k v : Chars) : '&' ∉ quotePlus k ++ '=' :: quotePlus v := by
  intro hmem
  rcases List.mem_append.mp hmem with h | h
  · exact amp_notMem_quotePlus k h
  · rcases List.mem_cons.mp h with h | h
    · exact absurd h (by decide)
    · exact amp_notMem_quotePlus v h

theorem splitOnChar_ne_nil (sep : Char) (l : Chars) : splitOnChar sep l ≠ [] := by
  induction l with
  | nil => simp [splitOnChar]
  | cons c rest ih =>
    simp only [splitOnChar]
    cases hm : splitOnChar sep rest with
    | nil => by_cases h : c = sep <;> simp [h]
    | cons f fs => by_cases h : c = sep <;> simp [h]

theorem splitOnChar_of_notMem (sep : Char) (a : Chars) (h : sep ∉ a) :
    splitOnChar sep a = [a] := by
  induction a with
  | nil => rfl
  | cons c rest ih =>
    have hc : c ≠ sep := fun he => h (he ▸ List.mem_cons_self c rest)
    have hrest : sep ∉ rest := fun hm => h (List.mem_cons_of_mem c hm)
    simp only [splitOnChar, ih hrest]
    rw [if_neg (fun he => hc he)]

theorem splitOnChar_append (sep : Char) (a b : Chars) (h : sep ∉ a) :
    splitOnChar sep (a ++ sep :: b) = a :: splitOnChar sep b := by
  induction a with
  | nil =>
    simp only [List.nil_append, splitOnChar]
    cases hm : splitOnChar sep b with
    | nil => exact absurd hm (splitOnChar_ne_nil sep b)
    | cons f fs => simp
  | cons c rest ih =>
    have hc : c ≠ sep := fun he => h (he ▸ List.mem_cons_self c rest)
    have hrest : sep ∉ rest := fun hm => h (List.mem_cons_of_mem c hm)
    simp only [List.cons_append, splitOnChar, List.append_eq, ih hrest]
    rw [if_neg (fun he => hc he)]

theorem splitOnChar_field_cons (k v R : Chars) :
    splitOnChar '&' (quotePlus k ++ '=' :: quotePlus v ++ '&' :: R) =
      (quotePlus k ++ '=' :: quotePlus v) :: splitOnChar '&' R := by
  have h := splitOnChar_append '&' (quotePlus k ++ '=' :: quotePlus v) R (amp_notMem_field k v)
  simpa [List.append_assoc] using h

theorem splitOnChar_field_last (k v : Chars) :
    splitOnChar '&' (quotePlus k ++ '=' :: quotePlus v) =
      [quotePlus k ++ '=' :: quotePlus v] :=
  splitOnChar_of_notMem '&' _ (amp_notMem_field k v)

theorem splitFirstEq_append (k v : Chars) (h : '=' ∉ k) :
    splitFirstEq (k ++ '=' :: v) = some (k, v) := by
  induction k with
  | nil => simp [splitFirstEq]
  | cons c rest ih =>
    have hc : c ≠ '=' := fun he => h (he ▸ List.mem_cons_self c rest)
    have hrest : '=' ∉ rest := fun hm => h (List.mem_cons_of_mem c hm)
    simp only [List.cons_append, splitFirstEq, List.append_eq, ih hrest]
    rw [if_neg hc]

theorem splitTarget_append (a b : Chars) (h : '?' ∉ a) :
    splitTarget (a ++ '?' :: b) = (a, b) := by
  induction a with
  | nil => simp [splitTarget]
  | cons c rest ih =>
    have hc : c ≠ '?' := fun he => h (he ▸ List.mem_cons_self c rest)
    have hrest : '?' ∉ rest := fun hm => h (List.mem_cons_of_mem c hm)
    simp only [List.cons_append, splitTarget, List.append_eq, ih hrest]
    rw [if_neg hc]

theorem quoteChar_of_safe (c : Char) (h : c ∈ alwaysSafeChars) : quoteChar c = [c] := by
  unfold quoteChar
  have hsp : c ≠ ' ' := fun he => absurd (he ▸ h) (by decide)
  rw [if_neg hsp, if_pos h]

theorem quotePlus_of_safe (s : Chars) (h : ∀ c ∈ s, c ∈ alwaysSafeChars) :
    quotePlus s = s := by
  induction s with
  | nil => rfl
  | cons c rest ih =>
    have hc := h c (List.mem_cons_self c rest)
    have hrest : ∀ d ∈ rest, d ∈ alwaysSafeChars := fun d hd => h d (List.mem_cons_of_mem c hd)
    simp only [quotePlus, List.map_cons, List.flatten_cons, quoteChar_of_safe c hc]
    simpa [quotePlus] using ih hrest

theorem percentDecode_of_no_percent (s : Chars) (h : ∀ c ∈ s, c ≠ '%') :
    percentDecode s = s := by
  induction s with
  | nil => rfl
  | cons c rest ih =>
    have hc := h c (List.mem_cons_self c rest)
    have hrest : ∀ d ∈ rest, d ≠ '%' := fun d hd => h d (List.mem_cons_of_mem c hd)
    rw [percentDecode.eq_def]
    simp only []
    rw [if_neg hc, ih hrest]

theorem unquotePlus_of_plain (s : Chars) (h : ∀ c ∈ s, c ≠ '%' ∧ c ≠ '+') :
    unquotePlus s = s := by
  unfold unquotePlus
  have hmap : (s.map fun c => if c = '+' then ' ' else c) = s := by
    induction s with
    | nil => rfl
    | cons c rest ih =>
      have hc := (h c (List.mem_cons_self c rest)).2
      have hrest : ∀ d ∈ rest, d ≠ '%' ∧ d ≠ '+' :=
        fun d hd => h d (List.mem_cons_of_mem c hd)
      simp only [List.map_cons, if_neg hc]
      rw [ih hrest]
  rw [hmap]
  exact percentDecode_of_no_percent s (fun c hc => (h c hc).1)

theorem urlsafe_spec : ∀ c ∈ urlsafeChars, c ∈ alwaysSafeChars ∧ c ≠ '%' ∧ c ≠ '+' := by
  decide

theorem getAll_cons_eq (k v : Chars) (ps : List (Chars × Chars)) (key : Chars)
    (h : k = key) : getAll ((k, v) :: ps) key = v :: getAll ps key := by
  simp [getAll, List.filterMap_cons, h]

theorem getAll_cons_ne (k v : Chars) (ps : List (Chars × Chars)) (key : Chars)
    (h : k ≠ key) : getAll ((k, v) :: ps) key = getAll ps key := by
  simp [getAll, List.filterMap_cons, h]

theorem parseField_field (qk qv : Chars) (hk : '=' ∉ qk) :
    parseField (qk ++ '=' :: qv) =
      if qv = [] then none else some (unquotePlus qk, unquotePlus qv) := by
  unfold parseField
  rw [if_neg (by simp), splitFirstEq_append qk qv hk]

theorem getAll_parse_skip (f : Chars) (fs : List Chars) (key : Chars)
    (h : ∀ p, parseField f = some p → p.1 ≠ key) :
    getAll ((f :: fs).filterMap parseField) key = getAll (fs.filterMap parseField) key := by
  cases hp : parseField f with
  | none => simp [List.filterMap_cons, hp]
  | some p =>
    rw [List.filterMap_cons, hp]
    cases p with
    | mk k v => exact getAll_cons_ne k v _ key (h (k, v) hp)

theorem parseField_key_ne (k v key : Chars)
    (hkey : unquotePlus (quotePlus k) ≠ key) :
    ∀ p, parseField (quotePlus k ++ '=' :: quotePlus v) = some p → p.1 ≠ key := by
  intro p hp
  rw [parseField_field _ _ (eqsign_notMem_quotePlus k)] at hp
  by_cases hv : quotePlus v = []
  · rw [if_pos hv] at hp; exact absurd hp (by simp)
  · rw [if_neg hv] at hp
    have hpe := Option.some.inj hp
    rw [← hpe]
    exact hkey

/-! ## Lemmas: the flow coordinator -/

theorem truthy_iff (o : Option Chars) : truthy o = true ↔ ∃ m, o = some m ∧ m ≠ [] := by
  cases o <;> simp [truthy]

theorem exchange_code_of_2xx (resp : TokenEndpoint) (h : is2xx resp.status = true) :
    exchange_code resp = Except.ok resp.body := by
  unfold exchange_code
  rw [if_pos h]

theorem exchange_code_ok_inv (resp : TokenEndpoint) (td : JsonDict)
    (h : exchange_code resp = Except.ok td) : td = resp.body := by
  unfold exchange_code at h
  by_cases ht : is2xx resp.status = true
  · rw [if_pos ht] at h
    exact (Except.ok.inj h).symm
  · rw [if_neg ht] at h
    exact absurd h (by simp)

/-- After a successful `server.start()` and `webbrowser.open`, the flow is the
wait / error-check / code-check / state-check / exchange chain. -/
theorem flow_eq (cid cs gs : Chars) (env : FlowEnv) (port : Nat)
    (hp : find_available_port env.canBind 8080 = Except.ok port)
    (hb : env.browserExn = none) :
    perform_oauth_flow cid cs gs env =
      (if truthy (serveAll env.requests).error then
        { result := Except.ok (none, none, (serveAll env.requests).error),
          serverStarted := true, serverStopped := true, exchangeAttempted := false }
      else if ¬ truthy (serveAll env.requests).auth_code then
        { result := Except.ok (none, none, some timeoutMsg),
          serverStarted := true, serverStopped := true, exchangeAttempted := false }
      else if (serveAll env.requests).auth_state ≠ some gs then
        { result := Except.ok (none, none, some stateMismatchMsg),
          serverStarted := true, serverStopped := true, exchangeAttempted := false }
      else
        match exchange_code env.token with
        | Except.error e =>
          { result := Except.error e, serverStarted := true, serverStopped := true,
            exchangeAttempted := true }
        | Except.ok token_data =>
          { result := Except.ok (dictGet token_data "access_token".data,
                                 dictGet token_data "refresh_token".data, none),
            serverStarted := true, serverStopped := true, exchangeAttempted := true }) := by
  unfold perform_oauth_flow
  rw [hp, hb]
  rfl

/-! ## Claim theorems -/

/-- C5 (confirmed): for every starting port and every pattern of bind
successes on ports in `[start, start+100)`, `_find_available_port` returns
the first port in the window that binds, and raises the no-available-ports
`RuntimeError` (the realization of `NoAvailablePortError`) exactly when
every port in the window fails to bind. -/
theorem c5_port_allocation (canBind : Nat → Bool) (start : Nat) :
    (∀ q, find_available_port canBind start = Except.ok q ↔
      (start ≤ q ∧ q < start + 100 ∧ canBind q = true ∧
        ∀ r, start ≤ r → r < q → canBind r = false)) ∧
    (find_available_port canBind start = Except.error (.runtimeError (noAvailablePortMsg start)) ↔
      ∀ r, start ≤ r → r < start + 100 → canBind r = false) := by
  unfold find_available_port
  cases hm : findPortLoop canBind start 100 with
  | none =>
    constructor
    · intro q
      constructor
      · intro h; exact absurd h (by simp)
      · intro ⟨h1, h2, h3, _⟩
        have := (findPortLoop_none canBind 100 start).mp hm q h1 h2
        rw [h3] at this
        exact absurd this (by simp)
    · simpa using (findPortLoop_none canBind 100 start).mp hm
  | some p =>
    constructor
    · intro q
      constructor
      · intro h
        have hpq : p = q := by simpa using h
        subst hpq
        exact (findPortLoop_some canBind 100 start p).mp hm
      · intro hq
        have : findPortLoop canBind start 100 = some q :=
          (findPortLoop_some canBind 100 start q).mpr hq
        rw [hm] at this
        have hpq : p = q := by simpa using this
        rw [hpq]
    · constructor
      · intro h; exact absurd h (by simp)
      · intro hall
        have : findPortLoop canBind start 100 = none :=
          (findPortLoop_none canBind 100 start).mpr (fun r h1 h2 => hall r h1 h2)
        rw [hm] at this
        exact absurd this (by simp)

/-- Witness for C5: with only port 8082 bindable, the allocator skips the
occupied ports 8080 and 8081 and returns 8082. -/
theorem c5_port_allocation_witness :
    find_available_port c5Bind 8080 = Except.ok 8082 :=
  ((c5_port_allocation c5Bind 8080).1 8082).mpr
    ⟨by omega, by omega, by decide,
      fun r h1 h2 => by interval_cases r <;> decide⟩

/-- C9 (confirmed): for every state drawn from the `token_urlsafe` alphabet,
the `state` query parameter embedded in the authorization URL built by
`get_authorization_url` (extracted back through `urlparse`/`parse_qs`) equals
the state component returned alongside the URL — the value
`perform_oauth_flow` later compares against the returned state. -/
theorem c9_state_roundtrip (client_id redirect state : Chars)
    (hsafe : ∀ c ∈ state, c ∈ urlsafeChars) (hne : state ≠ []) :
    (get_authorization_url client_id redirect state).2 = state ∧
    getAll (parse_qsl (splitTarget (get_authorization_url client_id redirect state).1).2)
      "state".data = [state] := by
  refine ⟨rfl, ?_⟩
  have hsub : ∀ c ∈ state, c ∈ alwaysSafeChars := fun c hc => (urlsafe_spec c (hsafe c hc)).1
  have hquote : quotePlus state = state := quotePlus_of_safe state hsub
  have hplain : unquotePlus state = state :=
    unquotePlus_of_plain state (fun c hc => (urlsafe_spec c (hsafe c hc)).2)
  simp only [get_authorization_url]
  rw [splitTarget_append _ _ (by decide)]
  simp only [urlencode, parse_qsl]
  rw [splitOnChar_field_cons, splitOnChar_field_cons, splitOnChar_field_cons,
      splitOnChar_field_cons, splitOnChar_field_last]
  rw [getAll_parse_skip _ _ _ (parseField_key_ne "client_id".data client_id _ (by decide))]
  rw [getAll_parse_skip _ _ _ (parseField_key_ne "redirect_uri".data redirect _ (by decide))]
  rw [getAll_parse_skip _ _ _
    (parseField_key_ne "response_type".data "code".data _ (by decide))]
  rw [getAll_parse_skip _ _ _
    (parseField_key_ne "scope".data "tasks:read tasks:write".data _ (by decide))]
  have h5 : parseField (quotePlus "state".data ++ '=' :: quotePlus state)
      = some ("state".data, state) := by
    rw [parseField_field _ _ (eqsign_notMem_quotePlus _), hquote, if_neg hne, hplain]
    have hk : unquotePlus (quotePlus "state".data) = "state".data := by decide
    rw [hk]
  simp only [List.filterMap_cons, h5, List.filterMap_nil]
  rw [getAll_cons_eq _ _ _ _ rfl]
  simp [getAll]

/-- Witness for C9 at a concrete state value. -/
theorem c9_state_roundtrip_witness :
    (get_authorization_url "cid".data "http://localhost:8080/callback".data "S".data).2
      = "S".data ∧
    getAll (parse_qsl (splitTarget
      (get_authorization_url "cid".data "http://localhost:8080/callback".data
        "S".data).1).2) "state".data = ["S".data] :=
  c9_state_roundtrip _ _ _ (by decide) (by decide)

/-- C4 (confirmed): on every exit of `perform_oauth_flow` taken after the
listener was started — success, timeout, CSRF failure, provider error, or an
exception propagating out of the `try` block — `OAuthRedirectServer.stop`
runs before control returns (the `finally` block). -/
theorem c4_listener_stopped (cid cs gs : Chars) (env : FlowEnv)
    (h : (perform_oauth_flow cid cs gs env).serverStarted = true) :
    (perform_oauth_flow cid cs gs env).serverStopped = true := by
  cases hp : find_available_port env.canBind 8080 with
  | error ex =>
    unfold perform_oauth_flow at h
    rw [hp] at h
    exact absurd h (by simp)
  | ok port =>
    cases hb : env.browserExn with
    | some ex =>
      unfold perform_oauth_flow
      rw [hp, hb]
    | none =>
      rw [flow_eq cid cs gs env port hp hb]
      by_cases h1 : truthy (serveAll env.requests).error = true
      · rw [if_pos h1]
      · rw [if_neg h1]
        by_cases h2 : ¬ truthy (serveAll env.requests).auth_code = true
        · rw [if_pos h2]
        · rw [if_neg h2]
          by_cases h3 : (serveAll env.requests).auth_state ≠ some gs
          · rw [if_pos h3]
          · rw [if_neg h3]
            cases hx : exchange_code env.token <;> rfl

/-- Witness for C4: the listener is stopped on the happy path. -/
theorem c4_listener_stopped_witness :
    (perform_oauth_flow "cid".data "sec".data "S".data envSuccess).serverStopped = true :=
  c4_listener_stopped "cid".data "sec".data "S".data envSuccess (by decide)

/-- C2 counterexample: at the P3 input (`code=abc123&state=WRONG`) the flow
returns the CSRF message WITHOUT a trailing period, not the claimed string
with one. -/
theorem c2_csrf_rejection_counterexample :
    (perform_oauth_flow "cid".data "sec".data "S".data envC2).result
      = Except.ok (none, none, some "State mismatch - possible CSRF attack".data) ∧
    (perform_oauth_flow "cid".data "sec".data "S".data envC2).result
      ≠ Except.ok (none, none, some "State mismatch - possible CSRF attack.".data) := by
  decide

/-- C2 (corrected): whenever the callback delivered a code but its state
differs from the generated one (including an absent state), the flow returns
`(None, None, "State mismatch - possible CSRF attack")` — no trailing
period — and the token exchange is never invoked. -/
theorem c2_csrf_rejection (cid cs gs : Chars) (env : FlowEnv) (port : Nat)
    (hp : find_available_port env.canBind 8080 = Except.ok port)
    (hb : env.browserExn = none)
    (he : truthy (serveAll env.requests).error = false)
    (hc : truthy (serveAll env.requests).auth_code = true)
    (hs : (serveAll env.requests).auth_state ≠ some gs) :
    (perform_oauth_flow cid cs gs env).result
      = Except.ok (none, none, some stateMismatchMsg) ∧
    (perform_oauth_flow cid cs gs env).exchangeAttempted = false := by
  rw [flow_eq cid cs gs env port hp hb]
  rw [if_neg (by rw [he]; exact Bool.false_ne_true)]
  rw [if_neg (not_not_intro hc)]
  rw [if_pos hs]
  exact ⟨rfl, rfl⟩

/-- Witness for C2 at the concrete P3 input. -/
theorem c2_csrf_rejection_witness :
    (perform_oauth_flow "cid".data "sec".data "S".data envC2).result
      = Except.ok (none, none, some stateMismatchMsg) ∧
    (perform_oauth_flow "cid".data "sec".data "S".data envC2).exchangeAttempted = false :=
  c2_csrf_rejection "cid".data "sec".data "S".data envC2 8080
    (by decide) rfl (by decide) (by decide) (by decide)

/-- C10 (confirmed): whenever the shared callback state holds a (truthy)
error when the wait completes — in particular when it also holds a code —
the flow returns `(None, None, error)` and the exchange is not attempted. -/
theorem c10_error_precedence (cid cs gs : Chars) (env : FlowEnv) (port : Nat)
    (hp : find_available_port env.canBind 8080 = Except.ok port)
    (hb : env.browserExn = none)
    (he : truthy (serveAll env.requests).error = true)
    (hc : truthy (serveAll env.requests).auth_code = true) :
    (perform_oauth_flow cid cs gs env).result
      = Except.ok (none, none, (serveAll env.requests).error) ∧
    (perform_oauth_flow cid cs gs env).exchangeAttempted = false := by
  rw [flow_eq cid cs gs env port hp hb, if_pos he]
  exact ⟨rfl, rfl⟩

/-- Witness for C10: both a code and an error are recorded, the error wins. -/
theorem c10_error_precedence_witness :
    (perform_oauth_flow "cid".data "sec".data "S".data envC6).result
      = Except.ok (none, none, (serveAll envC6.requests).error) ∧
    (perform_oauth_flow "cid".data "sec".data "S".data envC6).exchangeAttempted = false :=
  c10_error_precedence "cid".data "sec".data "S".data envC6 8080
    (by decide) rfl (by decide) (by decide)

/-- C1 counterexample: with a valid code-and-state callback and a 2xx token
response whose JSON body is empty, the flow completes with
`(None, None, None)` — the access token AND the error are both empty,
refuting the exactly-one-non-empty claim. -/
theorem c1_exclusive_counterexample :
    (perform_oauth_flow "cid".data "sec".data "S".data envC1).result
      = Except.ok (none, none, none) ∧ truthy none = false := by
  decide

/-- C1 (corrected): every completed call returns either a failure triple
`(None, None, message)` with a non-empty message, or a success triple whose
access and refresh components are read off the token response and whose
error is `None` — with nothing forcing the access token to be present. -/
theorem c1_token_or_error (cid cs gs : Chars) (env : FlowEnv) (a r e : Option Chars)
    (h : (perform_oauth_flow cid cs gs env).result = Except.ok (a, r, e)) :
    (a = none ∧ r = none ∧ ∃ m, e = some m ∧ m ≠ []) ∨
    (e = none ∧ a = dictGet env.token.body "access_token".data ∧
      r = dictGet env.token.body "refresh_token".data) := by
  cases hp : find_available_port env.canBind 8080 with
  | error ex =>
    unfold perform_oauth_flow at h
    rw [hp] at h
    exact absurd h (by simp)
  | ok port =>
    cases hb : env.browserExn with
    | some ex =>
      unfold perform_oauth_flow at h
      rw [hp, hb] at h
      exact absurd h (by simp)
    | none =>
      rw [flow_eq cid cs gs env port hp hb] at h
      by_cases h1 : truthy (serveAll env.requests).error = true
      · rw [if_pos h1] at h
        have h4 := Except.ok.inj h
        rw [Prod.mk.injEq, Prod.mk.injEq] at h4
        obtain ⟨ha, hr, he⟩ := h4
        obtain ⟨m, hm, hmne⟩ := (truthy_iff _).mp h1
        exact Or.inl ⟨ha.symm, hr.symm, m, he ▸ hm, hmne⟩
      · rw [if_neg h1] at h
        by_cases h2 : ¬ truthy (serveAll env.requests).auth_code = true
        · rw [if_pos h2] at h
          have h4 := Except.ok.inj h
          rw [Prod.mk.injEq, Prod.mk.injEq] at h4
          obtain ⟨ha, hr, he⟩ := h4
          exact Or.inl ⟨ha.symm, hr.symm, timeoutMsg, he.symm, by decide⟩
        · rw [if_neg h2] at h
          by_cases h3 : (serveAll env.requests).auth_state ≠ some gs
          · rw [if_pos h3] at h
            have h4 := Except.ok.inj h
            rw [Prod.mk.injEq, Prod.mk.injEq] at h4
            obtain ⟨ha, hr, he⟩ := h4
            exact Or.inl ⟨ha.symm, hr.symm, stateMismatchMsg, he.symm, by decide⟩
          · rw [if_neg h3] at h
            cases hx : exchange_code env.token with
            | error ex =>
              rw [hx] at h
              exact absurd h (by simp)
            | ok td =>
              rw [hx] at h
              have htd : td = env.token.body := exchange_code_ok_inv env.token td hx
              have h4 := Except.ok.inj h
              rw [Prod.mk.injEq, Prod.mk.injEq] at h4
              obtain ⟨ha, hr, he⟩ := h4
              exact Or.inr ⟨he.symm, htd ▸ ha.symm, htd ▸ hr.symm⟩

/-- Witness for C1 on the happy path: the success branch of the disjunction,
with both components read off the token response and error `None`. -/
theorem c1_token_or_error_witness :
    ((some "AT1".data : Option Chars) = none ∧ (some "RT1".data : Option Chars) = none ∧
      ∃ m, (none : Option Chars) = some m ∧ m ≠ []) ∨
    ((none : Option Chars) = none ∧
      (some "AT1".data : Option Chars) = dictGet envSuccess.token.body "access_token".data ∧
      (some "RT1".data : Option Chars) = dictGet envSuccess.token.body "refresh_token".data) :=
  c1_token_or_error "cid".data "sec".data "S".data envSuccess
    (some "AT1".data) (some "RT1".data) none (by decide)

/-- C3 counterexample: a non-2xx token-endpoint response during the code
exchange makes `httpx.HTTPStatusError` escape `perform_oauth_flow` instead
of being normalized into a `(None, None, message)` triple. -/
theorem c3_exception_escapes_counterexample :
    (perform_oauth_flow "cid".data "sec".data "S".data envC3).result
      = Except.error (PyExn.httpStatusError 500) := by
  decide

/-- C3 (corrected): no exception escapes only under the conditions the code
does not raise in — listener startup found a port, `webbrowser.open` did not
raise, and the token endpoint answered 2xx; then the flow always returns a
triple.  Exceptions from those three sources propagate to the caller. -/
theorem c3_no_escape_when_io_succeeds (cid cs gs : Chars) (env : FlowEnv)
    (hstart : (perform_oauth_flow cid cs gs env).serverStarted = true)
    (hb : env.browserExn = none)
    (ht : is2xx env.token.status = true) :
    ∃ t, (perform_oauth_flow cid cs gs env).result = Except.ok t := by
  cases hp : find_available_port env.canBind 8080 with
  | error ex =>
    unfold perform_oauth_flow at hstart
    rw [hp] at hstart
    exact absurd hstart (by simp)
  | ok port =>
    rw [flow_eq cid cs gs env port hp hb]
    by_cases h1 : truthy (serveAll env.requests).error = true
    · rw [if_pos h1]; exact ⟨_, rfl⟩
    · rw [if_neg h1]
      by_cases h2 : ¬ truthy (serveAll env.requests).auth_code = true
      · rw [if_pos h2]; exact ⟨_, rfl⟩
      · rw [if_neg h2]
        by_cases h3 : (serveAll env.requests).auth_state ≠ some gs
        · rw [if_pos h3]; exact ⟨_, rfl⟩
        · rw [if_neg h3]
          rw [exchange_code_of_2xx env.token ht]
          exact ⟨_, rfl⟩

/-- Witness for C3 (amended) on the happy path. -/
theorem c3_no_escape_witness :
    ∃ t, (perform_oauth_flow "cid".data "sec".data "S".data envSuccess).result
      = Except.ok t :=
  c3_no_escape_when_io_succeeds "cid".data "sec".data "S".data envSuccess
    (by decide) rfl (by decide)

/-- C7 (confirmed): a `/callback` request with an `error` parameter and no
`code` records the `error_description` value (or the `error` value when the
description is absent) with a 400 response, and the flow surfaces that exact
string: the P4 input yields `(None, None, "User declined")`. -/
theorem c7_error_passthrough (st : CallbackState) (q e : Chars) (es : List Chars)
    (hcode : getAll (parse_qsl q) "code".data = [])
    (herr : getAll (parse_qsl q) "error".data = e :: es) :
    (do_GET st ("/callback".data ++ '?' :: q)).1.error
      = some (((getAll (parse_qsl q) "error_description".data).head?).getD e) ∧
    (do_GET st ("/callback".data ++ '?' :: q)).2 = 400 ∧
    (perform_oauth_flow "cid".data "sec".data "S".data envC7).result
      = Except.ok (none, none, some "User declined".data) := by
  have hdo : do_GET st ("/callback".data ++ '?' :: q)
      = (CallbackState.mk st.auth_code st.auth_state
          (some (((getAll (parse_qsl q) "error_description".data).head?).getD e)), 400) := by
    unfold do_GET
    rw [splitTarget_append _ _ (by decide)]
    dsimp only
    rw [if_pos rfl, hcode, herr]
  rw [hdo]
  exact ⟨rfl, rfl, by decide⟩

/-- Witness for C7 at the P4 request, starting from the reset handler state. -/
theorem c7_error_passthrough_witness :
    (do_GET resetState
        ("/callback".data ++ '?' ::
          "error=access_denied&error_description=User%20declined".data)).1.error
      = some "User declined".data ∧
    (do_GET resetState
        ("/callback".data ++ '?' ::
          "error=access_denied&error_description=User%20declined".data)).2 = 400 ∧
    (perform_oauth_flow "cid".data "sec".data "S".data envC7).result
      = Except.ok (none, none, some "User declined".data) :=
  c7_error_passthrough resetState
    "error=access_denied&error_description=User%20declined".data
    "access_denied".data [] (by decide) (by decide)

/-- C6 (code bug witnessed): a second `/callback` request carrying an error
writes into the already-terminal shared state — after `code` then `error`
requests the state holds both, and the coordinator observes the error, not
the first-recorded code. -/
theorem c6_second_request_overwrites :
    serveAll [reqCode] = ⟨some "abc123".data, some "S".data, none⟩ ∧
    serveAll [reqCode, reqErr]
      = ⟨some "abc123".data, some "S".data, some "access_denied".data⟩ ∧
    (perform_oauth_flow "cid".data "sec".data "S".data envC6).result
      = Except.ok (none, none, some "access_denied".data) ∧
    (perform_oauth_flow "cid".data "sec".data "S".data envC6).exchangeAttempted = false := by
  decide

/-- C8 (confirmed): `refresh_access_token` raises the no-refresh-token
`ValueError` (the realization of `NoRefreshTokenError`) exactly when no
refresh token is held (Python truthiness), and a successful refresh whose
response omits `refresh_token` leaves the held refresh token unchanged. -/
theorem c8_refresh (st : AuthState) (resp : TokenEndpoint) :
    (refresh_access_token st resp
        = Except.error (PyExn.valueError "No refresh token available".data)
      ↔ truthy st.refresh_token = false) ∧
    (truthy st.refresh_token = true → is2xx resp.status = true →
      dictContains resp.body "refresh_token".data = false →
      ∃ st2, refresh_access_token st resp = Except.ok (st2, resp.body) ∧
        st2.refresh_token = st.refresh_token) := by
  constructor
  · unfold refresh_access_token
    by_cases h : truthy st.refresh_token = true
    · rw [if_neg (not_not_intro h)]
      constructor
      · intro hres
        by_cases ht : ¬ is2xx resp.status = true
        · rw [if_pos ht] at hres
          exact absurd (Except.error.inj hres) (by simp)
        · rw [if_neg ht] at hres
          exact absurd hres (by simp)
      · intro hres
        rw [h] at hres
        exact absurd hres (by simp)
    · have hf : truthy st.refresh_token = false := by
        cases hc : truthy st.refresh_token with
        | true => exact absurd hc h
        | false => rfl
      rw [if_pos h]
      exact ⟨fun _ => hf, fun _ => rfl⟩
  · intro h1 h2 h3
    unfold refresh_access_token
    rw [if_neg (not_not_intro h1), if_neg (not_not_intro h2)]
    refine ⟨_, rfl, ?_⟩
    dsimp only
    rw [if_neg (by rw [h3]; exact Bool.false_ne_true)]

/-- Witness for C8: a held refresh token and a 2xx response without a new
`refresh_token` keep the old refresh token. -/
theorem c8_refresh_witness :
    ∃ st2, refresh_access_token ⟨none, some "RT".data⟩
        ⟨200, [("access_token".data, "AT2".data)]⟩
      = Except.ok (st2, [("access_token".data, "AT2".data)]) ∧
      st2.refresh_token = (⟨none, some "RT".data⟩ : AuthState).refresh_token :=
  (c8_refresh ⟨none, some "RT".data⟩ ⟨200, [("access_token".data, "AT2".data)]⟩).2
    (by decide) (by decide) (by decide)

end Ticktui
